import Mathlib

/-!
Verification development for the marlon-app backend relay.

The definitions below are a shallow embedding of the webhook
reconciliation and merge logic of the server (the `POST /webhook/onfido`
handler, the `onfidoFetch` provider client and the
`GET /api/workflow_runs/:id` aggregator of `src/unnamed/part_002`,
first variant).  JavaScript values are modelled by `Json` together with
`Option` (where `none` stands for `undefined`), the in-memory
`webhookStore` `Map` by an association list, and the current time by an
explicit string parameter.
-/

/-- Parsed JSON values.  `JSON.parse` never produces `undefined`, so the
`undefined` value is represented separately by `Option.none` at use
sites. -/
inductive Json where
  | null : Json
  | bool : Bool → Json
  | num : Int → Json
  | str : String → Json
  | arr : List Json → Json
  | obj : List (String × Json) → Json
deriving Repr

mutual

def Json.decEq : (a b : Json) → Decidable (a = b)
  | .null, .null => isTrue rfl
  | .bool x, .bool y =>
    if h : x = y then isTrue (by rw [h]) else
      isFalse (by intro hh; injection hh; contradiction)
  | .num x, .num y =>
    if h : x = y then isTrue (by rw [h]) else
      isFalse (by intro hh; injection hh; contradiction)
  | .str x, .str y =>
    if h : x = y then isTrue (by rw [h]) else
      isFalse (by intro hh; injection hh; contradiction)
  | .arr xs, .arr ys =>
    match Json.decEqList xs ys with
    | isTrue h => isTrue (by rw [h])
    | isFalse h => isFalse (by intro hh; injection hh; contradiction)
  | .obj fs, .obj gs =>
    match Json.decEqFields fs gs with
    | isTrue h => isTrue (by rw [h])
    | isFalse h => isFalse (by intro hh; injection hh; contradiction)
  | .null, .bool _ => isFalse (fun h => Json.noConfusion h)
  | .null, .num _ => isFalse (fun h => Json.noConfusion h)
  | .null, .str _ => isFalse (fun h => Json.noConfusion h)
  | .null, .arr _ => isFalse (fun h => Json.noConfusion h)
  | .null, .obj _ => isFalse (fun h => Json.noConfusion h)
  | .bool _, .null => isFalse (fun h => Json.noConfusion h)
  | .bool _, .num _ => isFalse (fun h => Json.noConfusion h)
  | .bool _, .str _ => isFalse (fun h => Json.noConfusion h)
  | .bool _, .arr _ => isFalse (fun h => Json.noConfusion h)
  | .bool _, .obj _ => isFalse (fun h => Json.noConfusion h)
  | .num _, .null => isFalse (fun h => Json.noConfusion h)
  | .num _, .bool _ => isFalse (fun h => Json.noConfusion h)
  | .num _, .str _ => isFalse (fun h => Json.noConfusion h)
  | .num _, .arr _ => isFalse (fun h => Json.noConfusion h)
  | .num _, .obj _ => isFalse (fun h => Json.noConfusion h)
  | .str _, .null => isFalse (fun h => Json.noConfusion h)
  | .str _, .bool _ => isFalse (fun h => Json.noConfusion h)
  | .str _, .num _ => isFalse (fun h => Json.noConfusion h)
  | .str _, .arr _ => isFalse (fun h => Json.noConfusion h)
  | .str _, .obj _ => isFalse (fun h => Json.noConfusion h)
  | .arr _, .null => isFalse (fun h => Json.noConfusion h)
  | .arr _, .bool _ => isFalse (fun h => Json.noConfusion h)
  | .arr _, .num _ => isFalse (fun h => Json.noConfusion h)
  | .arr _, .str _ => isFalse (fun h => Json.noConfusion h)
  | .arr _, .obj _ => isFalse (fun h => Json.noConfusion h)
  | .obj _, .null => isFalse (fun h => Json.noConfusion h)
  | .obj _, .bool _ => isFalse (fun h => Json.noConfusion h)
  | .obj _, .num _ => isFalse (fun h => Json.noConfusion h)
  | .obj _, .str _ => isFalse (fun h => Json.noConfusion h)
  | .obj _, .arr _ => isFalse (fun h => Json.noConfusion h)

def Json.decEqList : (xs ys : List Json) → Decidable (xs = ys)
  | [], [] => isTrue rfl
  | [], _ :: _ => isFalse (fun h => List.noConfusion h)
  | _ :: _, [] => isFalse (fun h => List.noConfusion h)
  | x :: xs, y :: ys =>
    match Json.decEq x y with
    | isFalse h => isFalse (by intro hh; injection hh; contradiction)
    | isTrue h1 =>
      match Json.decEqList xs ys with
      | isTrue h2 => isTrue (by rw [h1, h2])
      | isFalse h => isFalse (by intro hh; injection hh; contradiction)

def Json.decEqFields :
    (fs gs : List (String × Json)) → Decidable (fs = gs)
  | [], [] => isTrue rfl
  | [], _ :: _ => isFalse (fun h => List.noConfusion h)
  | _ :: _, [] => isFalse (fun h => List.noConfusion h)
  | (k, v) :: fs, (k2, v2) :: gs =>
    if hk : k = k2 then
      match Json.decEq v v2 with
      | isFalse h =>
        isFalse (by
          intro hh; injection hh with hh1 hh2
          exact h (congrArg Prod.snd hh1))
      | isTrue h1 =>
        match Json.decEqFields fs gs with
        | isTrue h2 => isTrue (by rw [hk, h1, h2])
        | isFalse h => isFalse (by intro hh; injection hh; contradiction)
    else
      isFalse (by
        intro hh; injection hh with hh1 hh2
        exact hk (congrArg Prod.fst hh1))

end

instance : DecidableEq Json := Json.decEq

/-- A JavaScript value: `none` is `undefined`, `some Json.null` is `null`. -/
abbrev JsVal := Option Json

/-- JavaScript truthiness of a value (`undefined`, `null`, `false`, `0`
and the empty string are falsy; every object and array is truthy). -/
def truthy : JsVal → Bool
  | none => false
  | some Json.null => false
  | some (Json.bool b) => b
  | some (Json.num n) => n != 0
  | some (Json.str s) => s != ""
  | some (Json.arr _) => true
  | some (Json.obj _) => true

/-- The JavaScript `a || b` operator. -/
def jsOr (a b : JsVal) : JsVal := if truthy a then a else b

/-- Whether a value is `null` or `undefined` (the values `??` and `?.`
react to). -/
def isNullish : JsVal → Bool
  | none => true
  | some Json.null => true
  | _ => false

/-- The JavaScript `a ?? b` operator. -/
def nullish (a b : JsVal) : JsVal := if isNullish a then b else a

/-- First binding of a key in an object field list (JavaScript objects
obtained from `JSON.parse` have unique keys). -/
def lookupField : List (String × Json) → String → JsVal
  | [], _ => none
  | (k, v) :: rest, k0 => if k = k0 then some v else lookupField rest k0

/-- Property access `a?.k` (and `a.k` at the places where the source
guards `a` to be defined): accessing a property of a non-object yields
`undefined`. -/
def access (a : JsVal) (k : String) : JsVal :=
  match a with
  | some (Json.obj fs) => lookupField fs k
  | _ => none

mutual

/-- JavaScript string coercion `String(v)` of a JSON value, used where
the source coerces values to property keys or error messages. -/
def propKey : Json → String
  | Json.null => "null"
  | Json.bool true => "true"
  | Json.bool false => "false"
  | Json.num n => toString n
  | Json.str s => s
  | Json.arr xs => propKeyList xs
  | Json.obj _ => "[object Object]"

/-- `Array.prototype.toString`: elements joined with commas, `null`
elements rendered empty. -/
def propKeyList : List Json → String
  | [] => ""
  | [Json.null] => ""
  | [v] => propKey v
  | Json.null :: rest => "," ++ propKeyList rest
  | v :: rest => propKey v ++ "," ++ propKeyList rest

end

/-- `obj[k] = v`: replace the value at the first occurrence of the key,
keeping its position, or append the binding at the end (JavaScript
property insertion order). -/
def setKey : List (String × Json) → String → Json → List (String × Json)
  | [], k, v => [(k, v)]
  | (k0, v0) :: rest, k, v =>
    if k0 = k then (k, v) :: rest else (k0, v0) :: setKey rest k v

/-- A sequence of property assignments applied in order. -/
def applyWrites (m : List (String × Json)) (ws : List (String × Json)) :
    List (String × Json) :=
  ws.foldl (fun acc kv => setKey acc kv.1 kv.2) m

/-- The first merge loop of the webhook handler: every field of the
incoming output whose value is neither `null` nor `undefined` is
assigned into the accumulated output. -/
def mergeNonNull (m : List (String × Json)) (fs : List (String × Json)) :
    List (String × Json) :=
  fs.foldl (fun acc kv => if kv.2 = Json.null then acc else setKey acc kv.1 kv.2) m

/-- Primitive JavaScript values, compared by value by a `Map`; objects
and arrays are compared by reference, which the structural `Store`
below does not model, so theorems about repeated lookups of one run
identifier restrict it to primitives (the spec types identifiers as
strings). -/
def Json.isPrimitive : Json → Bool
  | Json.arr _ => false
  | Json.obj _ => false
  | _ => true

/-- The per-run record accumulated by the webhook handler.  Absent
fields (never assigned) are `none`; fields the handler assigns `null`
are `some Json.null`. -/
structure Rec where
  workflow_run_id : Option Json := none
  status : Option Json := none
  result : Option Json := none
  breakdown : Option Json := none
  raw_output : List (String × Json) := []
  breakdowns : List (String × Json) := []
  document_breakdown : Option Json := none
  device_breakdown : Option Json := none
  received_at : Option String := none
deriving DecidableEq, Repr

/-- The record a first delivery starts from:
`{ raw_output: {}, breakdowns: {}, document_breakdown: null,
device_breakdown: null }`. -/
def emptyRec : Rec :=
  { raw_output := []
    breakdowns := []
    document_breakdown := some Json.null
    device_breakdown := some Json.null }

/-- The in-memory `webhookStore` `Map`: keys are the run-identifier
values, `set` updates in place or appends (`Map` iteration order). -/
abbrev Store := List (Json × Rec)

def Store.get : Store → Json → Option Rec
  | [], _ => none
  | (k0, r0) :: rest, k => if k0 = k then some r0 else Store.get rest k

def Store.set : Store → Json → Rec → Store
  | [], k, r => [(k, r)]
  | (k0, r0) :: rest, k, r =>
    if k0 = k then (k, r) :: rest else (k0, r0) :: Store.set rest k r

/-! ### The webhook reconciler (POST /webhook/onfido) -/

/-- `payload?.payload?.resource || {}`. -/
def resourceOf (p : Json) : JsVal :=
  jsOr (access (access (some p) "payload") "resource") (some (Json.obj []))

/-- `resrc?.output || {}`. -/
def outputOf (p : Json) : JsVal :=
  jsOr (access (resourceOf p) "output") (some (Json.obj []))

/-- `payload?.payload?.object || {}`. -/
def objectOf (p : Json) : JsVal :=
  jsOr (access (access (some p) "payload") "object") (some (Json.obj []))

/-- The run-identifier chain of the handler:
`resrc?.workflow_run_id || obj?.workflow_run_id ||
(payload?.payload?.resource_type === "workflow_run" ? resrc?.id : null) ||
null`. -/
def extractRunId (p : Json) : JsVal :=
  jsOr (access (resourceOf p) "workflow_run_id")
    (jsOr (access (objectOf p) "workflow_run_id")
      (jsOr
        (if access (access (some p) "payload") "resource_type" =
            some (Json.str "workflow_run")
          then access (resourceOf p) "id" else some Json.null)
        (some Json.null)))

/-- The fields the first merge loop ranges over: the guard
`output && typeof output === "object" && !Array.isArray(output)` admits
exactly plain objects (`output` is truthy after `|| {}`). -/
def outputFields (output : JsVal) : List (String × Json) :=
  match output with
  | some (Json.obj fs) => fs
  | _ => []

/-- The bindings the `output.properties` loop ranges over: the guard
`output?.properties && typeof output.properties === "object"` admits
objects and also arrays, whose `Object.keys` are the element
indices. -/
def propsFields (output : JsVal) : List (String × Json) :=
  match access output "properties" with
  | some (Json.obj fs) => fs
  | some (Json.arr xs) => xs.enum.map (fun q => (toString q.1, q.2))
  | _ => []

/-- `typeof v === "object"` for a defined value (arrays included; the
`null` case is excluded by the truthiness conjunct at both use
sites). -/
def isObjectLike : JsVal → Bool
  | some (Json.obj _) => true
  | some (Json.arr _) => true
  | _ => false

/-- `resrc?.task_def_id || obj?.task_def_id || null`. -/
def taskDefIdOf (p : Json) : JsVal :=
  jsOr (access (resourceOf p) "task_def_id")
    (jsOr (access (objectOf p) "task_def_id") (some Json.null))

/-- `output?.breakdown`. -/
def breakdownOf (p : Json) : JsVal := access (outputOf p) "breakdown"

/-- The guard `taskDefId && output?.breakdown &&
typeof output.breakdown === "object"`. -/
def hasBreakdown (p : Json) : Bool :=
  truthy (taskDefIdOf p) && truthy (breakdownOf p) &&
    isObjectLike (breakdownOf p)

/-- The merged `raw_output`: the non-null top-level output fields, then
the `output.properties` bindings assigned unconditionally. -/
def rawOutputStep (p : Json) (old : List (String × Json)) :
    List (String × Json) :=
  applyWrites (mergeNonNull old (outputFields (outputOf p)))
    (propsFields (outputOf p))

/-- `existing.breakdowns[taskDefId] = output.breakdown` under its
guard. -/
def breakdownsStep (p : Json) (old : List (String × Json)) :
    List (String × Json) :=
  if hasBreakdown p then
    setKey old (propKey ((taskDefIdOf p).getD Json.null))
      ((breakdownOf p).getD Json.null)
  else old

/-- Promotion of a breakdown with a truthy marker field to a dedicated
slot (`visual_authenticity` and `device`). -/
def promoteStep (p : Json) (marker : String) (old : Option Json) :
    Option Json :=
  if hasBreakdown p && truthy (access (breakdownOf p) marker) then breakdownOf p
  else old

/-- Status resolution: `let status = existing.status; if
(typeof resrc?.status === "string" && resrc.status !== "processing")
status = resrc.status`. -/
def statusStep (incoming : JsVal) (old : Option Json) : Option Json :=
  match incoming with
  | some (Json.str s) =>
    if s = "processing" then old else some (Json.str s)
  | _ => old

/-- `output?.sub_result || output?.result || existing.result || null`. -/
def resultStep (output : JsVal) (old : Option Json) : Option Json :=
  jsOr (access output "sub_result")
    (jsOr (access output "result") (jsOr old (some Json.null)))

/-- `existing.document_breakdown ||
existing.breakdowns?.document_check_with_address_information ||
existing.breakdown || null` (reading the already-mutated slots). -/
def primaryBreakdownStep (docBd : Option Json)
    (breakdowns2 : List (String × Json)) (oldBreakdown : Option Json) :
    Option Json :=
  jsOr docBd
    (jsOr (lookupField breakdowns2 "document_check_with_address_information")
      (jsOr oldBreakdown (some Json.null)))

/-- One read-modify-write of the record for `rid` by the handler body
of `src/unnamed/part_002` lines 57-109 (the mutations of `existing`
and the final `merged` object literal). -/
def mergeRec (now : String) (p : Json) (rid : Json) (existing : Rec) : Rec :=
  let mergedOutput := rawOutputStep p existing.raw_output
  let breakdowns2 := breakdownsStep p existing.breakdowns
  let docBd := promoteStep p "visual_authenticity" existing.document_breakdown
  let devBd := promoteStep p "device" existing.device_breakdown
  let status := statusStep (access (resourceOf p) "status") existing.status
  let result := resultStep (outputOf p) existing.result
  let primaryBreakdown := primaryBreakdownStep docBd breakdowns2 existing.breakdown
  { existing with
    workflow_run_id := some rid
    status := status
    result := result
    breakdown := primaryBreakdown
    raw_output := mergedOutput
    breakdowns := breakdowns2
    document_breakdown := docBd
    device_breakdown := devBd
    received_at := some now }

/-- Ingesting one parsed webhook payload: extract the identifier, stop
when it is falsy, otherwise merge into the existing record (or the
fresh default) and store it back under the identifier. -/
def ingestPayload (now : String) (p : Json) (store : Store) : Store :=
  match extractRunId p with
  | none => store
  | some rid =>
    if truthy (some rid) then
      Store.set store rid (mergeRec now p rid ((Store.get store rid).getD emptyRec))
    else store

/-- The full `POST /webhook/onfido` handler: `body = none` stands for a
request body that is not valid JSON (`JSON.parse` threw).  Every path
answers HTTP 200. -/
def webhookHandler (now : String) (body : Option Json) (store : Store) :
    Nat × Store :=
  match body with
  | none => (200, store)
  | some p => (200, ingestPayload now p store)

/-! ### The provider client (onfidoFetch) -/

/-- The upstream HTTP response body as the client discriminates it:
`text` empty, or non-empty text that `JSON.parse` rejects, or non-empty
text parsing to a JSON value. -/
inductive UpstreamBody where
  | empty : UpstreamBody
  | invalid : String → UpstreamBody
  | valid : Json → UpstreamBody
deriving DecidableEq, Repr

/-- How a call to `onfidoFetch` settles: resolved with the parsed body,
rejected with the error object carrying `status`/`message`/`payload`
built for a non-ok response, or rejected with the `SyntaxError` that
`JSON.parse` throws on a non-empty non-JSON body. -/
inductive FetchOutcome where
  | ok : JsVal → FetchOutcome
  | providerErr : Nat → String → JsVal → FetchOutcome
  | parseErr : String → FetchOutcome
deriving DecidableEq, Repr

/-- `json?.error?.message || json?.message || s!Onfido status` with the
chosen value coerced to the error message string by the `Error`
constructor. -/
def errMessage (json : JsVal) (status : Nat) : String :=
  propKey
    ((jsOr (access (access json "error") "message")
        (jsOr (access json "message")
          (some (Json.str ("Onfido " ++ toString status))))).getD Json.null)

/-- `onfidoFetch` after the network layer: `ok`/`status` come from the
upstream response, `body` is its text.  The body is parsed before the
`res.ok` check, so a non-empty non-JSON body throws for any status. -/
def onfidoFetch (ok : Bool) (status : Nat) (body : UpstreamBody) :
    FetchOutcome :=
  match body with
  | UpstreamBody.invalid t => FetchOutcome.parseErr t
  | UpstreamBody.empty =>
    if ok then FetchOutcome.ok (some Json.null)
    else
      FetchOutcome.providerErr status (errMessage (some Json.null) status)
        (some Json.null)
  | UpstreamBody.valid j =>
    if ok then FetchOutcome.ok (some j)
    else FetchOutcome.providerErr status (errMessage (some j) status) (some j)

/-! ### The run view aggregator (GET /api/workflow_runs/:id) -/

/-- The HTTP answer of the aggregator route: a 200 JSON body, or
`res.status(e.status || 500).json(\x7b error: e.message,
details: e.payload \x7d)` from the catch block. -/
inductive RunViewResp where
  | ok : Json → RunViewResp
  | err : Nat → String → JsVal → RunViewResp
deriving DecidableEq, Repr

/-- The fields of `\x7b ...v \x7d` object spread: objects contribute
their bindings, arrays and strings their indexed elements, primitives
nothing. -/
def spreadFields : JsVal → List (String × Json)
  | some (Json.obj fs) => fs
  | some (Json.arr xs) => xs.enum.map (fun q => (toString q.1, q.2))
  | some (Json.str s) =>
    s.data.enum.map (fun q => (toString q.1, Json.str (String.mk [q.2])))
  | _ => []

/-- `[first_name, last_name].filter(Boolean).join(" ") || null`. -/
def joinNames (fn ln : JsVal) : Json :=
  let parts := ([fn, ln].filter truthy).map (fun v => propKey (v.getD Json.null))
  let s := String.intercalate " " parts
  if s = "" then Json.null else Json.str s

/-- The V8 TypeError raised by `run.status` when the resolved run body
is `null` (an ok upstream response with an empty body); its `status`
property is undefined, so the catch answers 500. -/
def nullRunMessage : String := "Cannot read properties of null (reading status)"

/-- The `GET /api/workflow_runs/:id` handler with the two provider
calls abstracted as their outcomes: `runRes` is the live run lookup,
`applicantRes` the fallback applicant lookup (only consulted when the
name condition triggers). -/
def getRunView (runRes : FetchOutcome) (applicantRes : FetchOutcome)
    (store : Store) (runId : String) : RunViewResp :=
  match runRes with
  | FetchOutcome.providerErr st msg payload =>
    RunViewResp.err (if st = 0 then 500 else st) msg payload
  | FetchOutcome.parseErr t =>
    RunViewResp.err 500 ("Unexpected token in JSON: " ++ t) none
  | FetchOutcome.ok run =>
    if isNullish run then RunViewResp.err 500 nullRunMessage none
    else
      let webhookData := Store.get store (Json.str runId)
      let output :=
        applyWrites []
          (spreadFields (jsOr (access run "output") (some (Json.obj []))) ++
            (webhookData.map Rec.raw_output).getD [])
      let fn0 := nullish (lookupField output "first_name") (some Json.null)
      let ln0 := nullish (lookupField output "last_name") (some Json.null)
      let doFallback :=
        (!truthy fn0 || !truthy ln0) && truthy (access run "applicant_id")
      let names :=
        if doFallback then
          match applicantRes with
          | FetchOutcome.ok applicant =>
            (jsOr fn0 (jsOr (access applicant "first_name") (some Json.null)),
              jsOr ln0 (jsOr (access applicant "last_name") (some Json.null)))
          | _ => (fn0, ln0)
        else (fn0, ln0)
      let fullName := joinNames names.1 names.2
      let base := applyWrites [] (spreadFields run)
      let b1 := setKey base "output" (Json.obj output)
      let b2 := setKey b1 "full_name" fullName
      let b3 :=
        match access run "status" with
        | some v => setKey b2 "status" v
        | none => b2
      RunViewResp.ok (Json.obj b3)

/-! ### Statement helpers and concrete inputs -/

/-- First element of a candidate list that is neither `undefined` nor
`null`. -/
def firstNonNull : List JsVal → JsVal
  | [] => none
  | c :: rest => if isNullish c then firstNonNull rest else c

/-- Run-identifier extraction in the order claim C7 words it: the
resource's `workflow_run_id`, then the resource's own `id` but only
when the payload's declared resource type is a workflow run, then the
alternate nested object's `id`, first non-null match. -/
def specExtractRunId (p : Json) : JsVal :=
  firstNonNull
    [access (resourceOf p) "workflow_run_id",
      if access (access (some p) "payload") "resource_type" =
          some (Json.str "workflow_run")
        then access (resourceOf p) "id" else none,
      access (objectOf p) "id"]

/-- First truthy element of a candidate list, `null` when none is. -/
def firstTruthy : List JsVal → JsVal
  | [] => some Json.null
  | c :: rest => if truthy c then c else firstTruthy rest

/-- Run-identifier extraction in the corrected order: the resource's
`workflow_run_id`, then the alternate nested object's
`workflow_run_id`, then the resource's own `id` when the declared
resource type is a workflow run; first truthy match, and the alternate
object's plain `id` is never consulted. -/
def amendedExtractRunId (p : Json) : JsVal :=
  firstTruthy
    [access (resourceOf p) "workflow_run_id",
      access (objectOf p) "workflow_run_id",
      if access (access (some p) "payload") "resource_type" =
          some (Json.str "workflow_run")
        then access (resourceOf p) "id" else none]

/-- Every entry of the store carries its own key as
`workflow_run_id`. -/
def storeConsistent (s : Store) : Bool :=
  s.all (fun e => decide (e.2.workflow_run_id = some e.1))

/-- The record stored for `rid` exists and holds every key of `ks` in
its `raw_output`. -/
def runHasKeys (s : Store) (rid : Json) (ks : List String) : Bool :=
  ((Store.get s rid).map
    (fun r => ks.all (fun k => (lookupField r.raw_output k).isSome))).getD false

/-- The record stored for `rid` exists and holds key `k` with a
non-null value in its `raw_output`. -/
def rawFieldNonNull (s : Store) (rid : Json) (k : String) : Bool :=
  ((Store.get s rid).map
    (fun r =>
      ((lookupField r.raw_output k).map
        (fun w => decide (w ≠ Json.null))).getD false)).getD false

/-- Delivery for run `r1` carrying output field `a`. -/
def c1p1 : Json :=
  Json.obj [("payload", Json.obj [("resource", Json.obj
    [("workflow_run_id", Json.str "r1"),
      ("output", Json.obj [("a", Json.num 1)])])])]

/-- Delivery for run `r1` carrying the disjoint output field `b`. -/
def c1p2 : Json :=
  Json.obj [("payload", Json.obj [("resource", Json.obj
    [("workflow_run_id", Json.str "r1"),
      ("output", Json.obj [("b", Json.num 2)])])])]

/-- Delivery for run `r2` carrying output field `x` with value 1. -/
def c2p1 : Json :=
  Json.obj [("payload", Json.obj [("resource", Json.obj
    [("workflow_run_id", Json.str "r2"),
      ("output", Json.obj [("x", Json.num 1)])])])]

/-- Later delivery for run `r2` whose `output.properties` maps `x` to
`null`. -/
def c2p2 : Json :=
  Json.obj [("payload", Json.obj [("resource", Json.obj
    [("workflow_run_id", Json.str "r2"),
      ("output", Json.obj
        [("properties", Json.obj [("x", Json.null)])])])])]

/-- A store already holding a non-null `x` for run `rw2`. -/
def c2wStore : Store :=
  [(Json.str "rw2", { raw_output := [("x", Json.num 7)] })]

/-- Later delivery for run `rw2` not touching `x` through
`properties`. -/
def c2wP : Json :=
  Json.obj [("payload", Json.obj [("resource", Json.obj
    [("workflow_run_id", Json.str "rw2"),
      ("output", Json.obj [("y", Json.num 2)])])])]

/-- A store whose record for run `r3` holds the terminal status
`approved`. -/
def c3Store : Store :=
  [(Json.str "r3", { status := some (Json.str "approved") })]

/-- Later delivery for run `r3` carrying status `processing`. -/
def c3p : Json :=
  Json.obj [("payload", Json.obj [("resource", Json.obj
    [("workflow_run_id", Json.str "r3"),
      ("status", Json.str "processing")])])]

/-- Delivery for run `r4` with a status and an output field. -/
def c4p : Json :=
  Json.obj [("payload", Json.obj [("resource", Json.obj
    [("workflow_run_id", Json.str "r4"),
      ("status", Json.str "approved"),
      ("output", Json.obj [("a", Json.num 1)])])])]

/-- First delivery for run `r5` whose only status is `processing`. -/
def c5p : Json :=
  Json.obj [("payload", Json.obj [("resource", Json.obj
    [("workflow_run_id", Json.str "r5"),
      ("status", Json.str "processing")])])]

/-- First delivery for run `r5w` carrying the status `clear`. -/
def c5wp : Json :=
  Json.obj [("payload", Json.obj [("resource", Json.obj
    [("workflow_run_id", Json.str "r5w"),
      ("status", Json.str "clear")])])]

/-- Payload whose resource type is `workflow_run` with a resource `id`
and an alternate object carrying `workflow_run_id`: the claimed order
picks `A`, the code picks `B`. -/
def c7p : Json :=
  Json.obj [("payload", Json.obj
    [("resource_type", Json.str "workflow_run"),
      ("resource", Json.obj [("id", Json.str "A")]),
      ("object", Json.obj [("workflow_run_id", Json.str "B")])])]

/-- Delivery for run `r10`. -/
def c10p : Json :=
  Json.obj [("payload", Json.obj [("resource", Json.obj
    [("workflow_run_id", Json.str "r10"),
      ("output", Json.obj [("a", Json.num 1)])])])]

/-! ### Lemmas about property assignment -/

/-- The key sequence of an object. -/
def fieldKeys (l : List (String × Json)) : List String := l.map Prod.fst

theorem lookupField_setKey_self (l : List (String × Json)) (k : String)
    (v : Json) : lookupField (setKey l k v) k = some v := by
  induction l with
  | nil => simp [setKey, lookupField]
  | cons hd tl ih =>
    obtain ⟨k0, v0⟩ := hd
    by_cases h : k0 = k
    · simp [setKey, h, lookupField]
    · simp [setKey, h, lookupField, ih]

theorem lookupField_setKey_ne (l : List (String × Json)) {k k2 : String}
    (v : Json) (h : k ≠ k2) :
    lookupField (setKey l k v) k2 = lookupField l k2 := by
  induction l with
  | nil => simp [setKey, lookupField, h]
  | cons hd tl ih =>
    obtain ⟨k0, v0⟩ := hd
    by_cases h0 : k0 = k
    · subst h0; simp [setKey, lookupField, h]
    · simp [setKey, h0, lookupField, ih]

theorem mem_fieldKeys_setKey (l : List (String × Json)) (k k2 : String)
    (v : Json) :
    k2 ∈ fieldKeys (setKey l k v) ↔ k2 = k ∨ k2 ∈ fieldKeys l := by
  induction l with
  | nil => simp [setKey, fieldKeys]
  | cons hd tl ih =>
    obtain ⟨k0, v0⟩ := hd
    by_cases h : k0 = k
    · subst h; simp [setKey, fieldKeys] at ih ⊢; try tauto
    · simp [setKey, h, fieldKeys] at ih ⊢; try tauto

theorem setKey_setKey_same (l : List (String × Json)) (k : String)
    (v w : Json) : setKey (setKey l k v) k w = setKey l k w := by
  induction l with
  | nil => simp [setKey]
  | cons hd tl ih =>
    obtain ⟨k0, v0⟩ := hd
    by_cases h : k0 = k
    · simp [setKey, h]
    · simp [setKey, h, ih]

theorem setKey_comm_of_mem (l : List (String × Json)) {k k2 : String}
    (v w : Json) (hne : k ≠ k2) (hm : k ∈ fieldKeys l) :
    setKey (setKey l k v) k2 w = setKey (setKey l k2 w) k v := by
  induction l with
  | nil => simp [fieldKeys] at hm
  | cons hd tl ih =>
    obtain ⟨k0, v0⟩ := hd
    by_cases h0 : k0 = k
    · subst h0
      simp [setKey, hne, Ne.symm hne]
    · by_cases h2 : k0 = k2
      · subst h2; simp [setKey, h0, Ne.symm hne] at *
      · have hm2 : k ∈ fieldKeys tl := by
          simp [fieldKeys] at hm
          rcases hm with h | h
          · exact absurd h.symm h0
          · simpa [fieldKeys] using h
        simp [setKey, h0, h2, ih hm2]

theorem setKey_lookup_eq (l : List (String × Json)) {k : String} {v : Json}
    (h : lookupField l k = some v) : setKey l k v = l := by
  induction l with
  | nil => simp [lookupField] at h
  | cons hd tl ih =>
    obtain ⟨k0, v0⟩ := hd
    by_cases h0 : k0 = k
    · subst h0
      simp [lookupField] at h
      simp [setKey, h]
    · simp [lookupField, h0] at h
      simp [setKey, h0, ih h]

theorem applyWrites_nil (m : List (String × Json)) : applyWrites m [] = m := rfl

theorem applyWrites_cons (m : List (String × Json)) (kv : String × Json)
    (ws : List (String × Json)) :
    applyWrites m (kv :: ws) = applyWrites (setKey m kv.1 kv.2) ws := rfl

theorem applyWrites_append (m : List (String × Json))
    (ws1 ws2 : List (String × Json)) :
    applyWrites m (ws1 ++ ws2) = applyWrites (applyWrites m ws1) ws2 := by
  simp [applyWrites, List.foldl_append]

theorem lookupField_applyWrites_not_mem (ws : List (String × Json))
    (m : List (String × Json)) {k : String} (h : k ∉ fieldKeys ws) :
    lookupField (applyWrites m ws) k = lookupField m k := by
  induction ws generalizing m with
  | nil => rfl
  | cons kv ws ih =>
    obtain ⟨k0, v0⟩ := kv
    simp [fieldKeys] at h
    rw [applyWrites_cons]
    rw [ih _ (by simp [fieldKeys]; exact h.2)]
    exact lookupField_setKey_ne m v0 (fun hh => h.1 hh.symm)

theorem mem_fieldKeys_applyWrites (ws : List (String × Json))
    (m : List (String × Json)) {k : String} (h : k ∈ fieldKeys m) :
    k ∈ fieldKeys (applyWrites m ws) := by
  induction ws generalizing m with
  | nil => exact h
  | cons kv ws ih =>
    rw [applyWrites_cons]
    exact ih _ ((mem_fieldKeys_setKey m kv.1 k kv.2).2 (Or.inr h))

theorem applyWrites_setKey_mem (ws : List (String × Json))
    (l : List (String × Json)) {k : String} (v : Json)
    (hl : k ∈ fieldKeys l) (hw : k ∈ fieldKeys ws) :
    applyWrites (setKey l k v) ws = applyWrites l ws := by
  induction ws generalizing l v with
  | nil => simp [fieldKeys] at hw
  | cons kv ws ih =>
    obtain ⟨k0, w⟩ := kv
    by_cases h0 : k0 = k
    · subst h0
      rw [applyWrites_cons, applyWrites_cons]
      simp only [setKey_setKey_same]
    · have hw2 : k ∈ fieldKeys ws := by
        simp [fieldKeys] at hw
        rcases hw with h | h
        · exact absurd h.symm h0
        · simpa [fieldKeys] using h
      rw [applyWrites_cons, applyWrites_cons]
      have hcomm := setKey_comm_of_mem l v w (fun hh => h0 hh.symm) hl
      simp only at hcomm
      rw [hcomm]
      exact ih (setKey l k0 w) v
        ((mem_fieldKeys_setKey l k0 k w).2 (Or.inr hl)) hw2

theorem applyWrites_idem (ws : List (String × Json))
    (m : List (String × Json)) :
    applyWrites (applyWrites m ws) ws = applyWrites m ws := by
  induction ws generalizing m with
  | nil => rfl
  | cons kv ws ih =>
    obtain ⟨k, v⟩ := kv
    rw [applyWrites_cons, applyWrites_cons]
    by_cases hw : k ∈ fieldKeys ws
    · have hk : k ∈ fieldKeys (applyWrites (setKey m k v) ws) :=
        mem_fieldKeys_applyWrites _ _
          ((mem_fieldKeys_setKey m k k v).2 (Or.inl rfl))
      rw [applyWrites_setKey_mem ws _ v hk hw]
      exact ih _
    · have hlook :
          lookupField (applyWrites (setKey m k v) ws) k = some v := by
        rw [lookupField_applyWrites_not_mem ws _ hw]
        exact lookupField_setKey_self m k v
      rw [setKey_lookup_eq _ hlook]
      exact ih _

theorem mergeNonNull_eq_applyWrites (fs : List (String × Json))
    (m : List (String × Json)) :
    mergeNonNull m fs =
      applyWrites m (fs.filter (fun kv => kv.2 != Json.null)) := by
  induction fs generalizing m with
  | nil => rfl
  | cons kv fs ih =>
    obtain ⟨k, v⟩ := kv
    by_cases h : v = Json.null
    · subst h
      simp only [mergeNonNull, List.foldl_cons, if_pos rfl, List.filter_cons]
      simpa [mergeNonNull] using ih m
    · simp only [mergeNonNull, List.foldl_cons, if_neg h, List.filter_cons]
      have : ((k, v).2 != Json.null) = true := by simpa using h
      rw [this]
      simp only [applyWrites_cons]
      simpa [mergeNonNull] using ih (setKey m k v)

theorem lookupField_isSome_setKey (l : List (String × Json)) (k k2 : String)
    (v : Json) (h : (lookupField l k2).isSome = true) :
    (lookupField (setKey l k v) k2).isSome = true := by
  by_cases hk : k = k2
  · subst hk; simp [lookupField_setKey_self]
  · rwa [lookupField_setKey_ne l v hk]

theorem lookupField_isSome_applyWrites (ws : List (String × Json))
    (m : List (String × Json)) (k : String)
    (h : (lookupField m k).isSome = true) :
    (lookupField (applyWrites m ws) k).isSome = true := by
  induction ws generalizing m with
  | nil => exact h
  | cons kv ws ih =>
    rw [applyWrites_cons]
    exact ih _ (lookupField_isSome_setKey m kv.1 k kv.2 h)

theorem lookupField_isSome_mergeNonNull (fs : List (String × Json))
    (m : List (String × Json)) (k : String)
    (h : (lookupField m k).isSome = true) :
    (lookupField (mergeNonNull m fs) k).isSome = true := by
  rw [mergeNonNull_eq_applyWrites]
  exact lookupField_isSome_applyWrites _ m k h

theorem mergeNonNull_cons (m : List (String × Json)) (k : String) (v : Json)
    (fs : List (String × Json)) :
    mergeNonNull m ((k, v) :: fs) =
      mergeNonNull (if v = Json.null then m else setKey m k v) fs := rfl

theorem lookupField_isSome_mergeNonNull_mem (fs : List (String × Json))
    (m : List (String × Json)) (k : String) :
    (∀ kv ∈ fs, kv.2 ≠ Json.null) → k ∈ fieldKeys fs →
    (lookupField (mergeNonNull m fs) k).isSome = true := by
  induction fs generalizing m with
  | nil => intro _ hk; simp [fieldKeys] at hk
  | cons kv fs ih =>
    intro hnn hk
    obtain ⟨k0, v0⟩ := kv
    have hv0 : v0 ≠ Json.null := hnn (k0, v0) (by simp)
    rw [mergeNonNull_cons, if_neg hv0]
    by_cases hmem : k ∈ fieldKeys fs
    · exact ih _ (fun kv h => hnn kv (List.mem_cons_of_mem _ h)) hmem
    · have hk0 : k = k0 := by
        simp [fieldKeys] at hk hmem
        tauto
      subst hk0
      exact lookupField_isSome_mergeNonNull fs _ k
        (by simp [lookupField_setKey_self])

theorem lookupField_mergeNonNull_nonnull (fs : List (String × Json))
    (m : List (String × Json)) (k : String) (v : Json) :
    lookupField m k = some v → v ≠ Json.null →
    ∃ w, lookupField (mergeNonNull m fs) k = some w ∧ w ≠ Json.null := by
  induction fs generalizing m v with
  | nil => intro h hv; exact ⟨v, h, hv⟩
  | cons kv fs ih =>
    intro h hv
    obtain ⟨k0, v0⟩ := kv
    rw [mergeNonNull_cons]
    by_cases h0 : v0 = Json.null
    · rw [if_pos h0]
      exact ih m v h hv
    · rw [if_neg h0]
      by_cases hk : k0 = k
      · subst hk
        exact ih _ v0 (lookupField_setKey_self m k0 v0) h0
      · exact ih _ v (by rw [lookupField_setKey_ne m v0 hk]; exact h) hv

/-! ### Lemmas about the store -/

theorem Store.get_set_self (s : Store) (k : Json) (r : Rec) :
    Store.get (Store.set s k r) k = some r := by
  induction s with
  | nil => simp [Store.set, Store.get]
  | cons hd tl ih =>
    obtain ⟨k0, r0⟩ := hd
    by_cases h : k0 = k
    · simp [Store.set, h, Store.get]
    · simp [Store.set, h, Store.get, ih]

theorem Store.get_set_ne (s : Store) {k k2 : Json} (r : Rec) (h : k ≠ k2) :
    Store.get (Store.set s k r) k2 = Store.get s k2 := by
  induction s with
  | nil => simp [Store.set, Store.get, h]
  | cons hd tl ih =>
    obtain ⟨k0, r0⟩ := hd
    by_cases h0 : k0 = k
    · subst h0; simp [Store.set, Store.get, h]
    · simp [Store.set, h0, Store.get, ih]

theorem Store.set_set_same (s : Store) (k : Json) (r r2 : Rec) :
    Store.set (Store.set s k r) k r2 = Store.set s k r2 := by
  induction s with
  | nil => simp [Store.set]
  | cons hd tl ih =>
    obtain ⟨k0, r0⟩ := hd
    by_cases h : k0 = k
    · simp [Store.set, h]
    · simp [Store.set, h, ih]

theorem Store.mem_set (s : Store) (k : Json) (r : Rec) (e : Json × Rec) :
    e ∈ Store.set s k r → e = (k, r) ∨ e ∈ s := by
  induction s with
  | nil => simp [Store.set]
  | cons hd tl ih =>
    obtain ⟨k0, r0⟩ := hd
    by_cases h : k0 = k
    · simp [Store.set, h]
      tauto
    · simp [Store.set, h]
      intro hmem
      rcases hmem with h1 | h1
      · right; left; exact h1
      · rcases ih h1 with h2 | h2
        · left; exact h2
        · right; right; exact h2

/-! ### Characterisation of one ingest -/

theorem jsOr_of_truthy {a : JsVal} (b : JsVal) (h : truthy a = true) :
    jsOr a b = a := by simp [jsOr, h]

theorem jsOr_of_falsy {a : JsVal} (b : JsVal) (h : truthy a = false) :
    jsOr a b = b := by simp [jsOr, h]

theorem jsOr_null_absorb (x : JsVal) :
    jsOr (jsOr x (some Json.null)) (some Json.null) = jsOr x (some Json.null) := by
  cases h : truthy x with
  | true => rw [jsOr_of_truthy _ h, jsOr_of_truthy _ h]
  | false =>
    rw [jsOr_of_falsy _ h, jsOr_of_falsy _ (by decide)]

theorem mergeRec_workflow_run_id (now : String) (p : Json) (rid : Json)
    (e : Rec) : (mergeRec now p rid e).workflow_run_id = some rid := rfl

theorem mergeRec_status (now : String) (p : Json) (rid : Json) (e : Rec) :
    (mergeRec now p rid e).status =
      statusStep (access (resourceOf p) "status") e.status := rfl

theorem mergeRec_raw_output (now : String) (p : Json) (rid : Json) (e : Rec) :
    (mergeRec now p rid e).raw_output = rawOutputStep p e.raw_output := rfl

theorem ingestPayload_get_self (now : String) (p : Json) (store : Store)
    (rid : Json) (hrid : extractRunId p = some rid)
    (ht : truthy (some rid) = true) :
    Store.get (ingestPayload now p store) rid =
      some (mergeRec now p rid ((Store.get store rid).getD emptyRec)) := by
  unfold ingestPayload
  rw [hrid]
  simp only [if_pos ht]
  exact Store.get_set_self store rid _

theorem ingestPayload_truthy_eq (now : String) (p : Json) (store : Store)
    (rid : Json) (hrid : extractRunId p = some rid)
    (ht : truthy (some rid) = true) :
    ingestPayload now p store =
      Store.set store rid (mergeRec now p rid ((Store.get store rid).getD emptyRec)) := by
  unfold ingestPayload
  rw [hrid]
  simp only [if_pos ht]

theorem ingestPayload_falsy (now : String) (p : Json) (store : Store)
    (rid : Json) (hrid : extractRunId p = some rid)
    (ht : truthy (some rid) = false) :
    ingestPayload now p store = store := by
  unfold ingestPayload
  rw [hrid]
  simp [ht]

/-! ### Idempotence of the merge steps -/

theorem statusStep_idem (inc : JsVal) (old : Option Json) :
    statusStep inc (statusStep inc old) = statusStep inc old := by
  cases inc with
  | none => rfl
  | some v =>
    cases v with
    | str s =>
      by_cases h : s = "processing" <;> simp [statusStep, h]
    | null => rfl
    | bool b => rfl
    | num n => rfl
    | arr xs => rfl
    | obj fs => rfl

theorem resultStep_idem (out : JsVal) (old : Option Json) :
    resultStep out (resultStep out old) = resultStep out old := by
  unfold resultStep
  cases h1 : truthy (access out "sub_result") with
  | true => rw [jsOr_of_truthy _ h1, jsOr_of_truthy _ h1]
  | false =>
    rw [jsOr_of_falsy _ h1, jsOr_of_falsy _ h1]
    cases h2 : truthy (access out "result") with
    | true => rw [jsOr_of_truthy _ h2, jsOr_of_truthy _ h2]
    | false =>
      rw [jsOr_of_falsy _ h2, jsOr_of_falsy _ h2]
      exact jsOr_null_absorb old

theorem promoteStep_idem (p : Json) (marker : String) (old : Option Json) :
    promoteStep p marker (promoteStep p marker old) = promoteStep p marker old := by
  unfold promoteStep
  by_cases h : (hasBreakdown p && truthy (access (breakdownOf p) marker)) = true <;>
    simp [h]

theorem breakdownsStep_idem (p : Json) (old : List (String × Json)) :
    breakdownsStep p (breakdownsStep p old) = breakdownsStep p old := by
  unfold breakdownsStep
  by_cases h : hasBreakdown p = true <;> simp [h, setKey_setKey_same]

theorem rawOutputStep_eq_applyWrites (p : Json) (m : List (String × Json)) :
    rawOutputStep p m =
      applyWrites m
        ((outputFields (outputOf p)).filter (fun kv => kv.2 != Json.null) ++
          propsFields (outputOf p)) := by
  unfold rawOutputStep
  rw [mergeNonNull_eq_applyWrites, applyWrites_append]

theorem rawOutputStep_idem (p : Json) (old : List (String × Json)) :
    rawOutputStep p (rawOutputStep p old) = rawOutputStep p old := by
  simp only [rawOutputStep_eq_applyWrites]
  exact applyWrites_idem _ _

theorem primaryBreakdownStep_idem (d : Option Json)
    (b : List (String × Json)) (x : Option Json) :
    primaryBreakdownStep d b (primaryBreakdownStep d b x) =
      primaryBreakdownStep d b x := by
  unfold primaryBreakdownStep
  cases h1 : truthy d with
  | true => rw [jsOr_of_truthy _ h1, jsOr_of_truthy _ h1]
  | false =>
    rw [jsOr_of_falsy _ h1, jsOr_of_falsy _ h1]
    cases h2 : truthy (lookupField b "document_check_with_address_information") with
    | true => rw [jsOr_of_truthy _ h2, jsOr_of_truthy _ h2]
    | false =>
      rw [jsOr_of_falsy _ h2, jsOr_of_falsy _ h2]
      exact jsOr_null_absorb x

theorem mergeRec_idem (t1 t2 : String) (p : Json) (rid : Json) (e : Rec) :
    mergeRec t2 p rid (mergeRec t1 p rid e) = mergeRec t2 p rid e := by
  simp only [mergeRec, Rec.mk.injEq, statusStep_idem, resultStep_idem,
    rawOutputStep_idem, breakdownsStep_idem, promoteStep_idem,
    primaryBreakdownStep_idem, and_self, and_true, true_and]

/-! ### Claim theorems -/

/-- Claim C6: for every request body that is not valid JSON posted to
the webhook endpoint, the handler responds 200 and the webhook store is
exactly the same after the request as before it. -/
theorem webhook_malformed_body_is_noop (now : String) (store : Store) :
    webhookHandler now none store = (200, store) := rfl

/-- Claim C8: for every provider failure on the live run lookup, the
run view endpoint responds with the provider's HTTP status code and an
error field carrying the provider's message, for any store contents and
any applicant-lookup outcome. -/
theorem run_view_provider_error_passthrough (st : Nat) (msg : String)
    (payload : JsVal) (applicantRes : FetchOutcome) (store : Store)
    (runId : String) (h : st ≠ 0) :
    getRunView (FetchOutcome.providerErr st msg payload) applicantRes store
      runId = RunViewResp.err st msg payload := by
  simp [getRunView, h]

theorem run_view_provider_error_passthrough_witness :
    (404 ≠ 0) ∧
      getRunView (FetchOutcome.providerErr 404 "resource not found" (some Json.null))
        (FetchOutcome.ok (some Json.null)) [] "run_1" =
        RunViewResp.err 404 "resource not found" (some Json.null) :=
  ⟨by decide,
    run_view_provider_error_passthrough 404 "resource not found"
      (some Json.null) (FetchOutcome.ok (some Json.null)) [] "run_1" (by decide)⟩

/-- Claim C9 counterexample: a success response whose body is non-empty
but not valid JSON does not resolve to a null body; it fails with the
parse error, unlike an absent (empty) body. -/
theorem onfido_fetch_invalid_body_counterexample :
    onfidoFetch true 200 (UpstreamBody.invalid "<html>") =
        FetchOutcome.parseErr "<html>" ∧
      onfidoFetch true 200 UpstreamBody.empty =
        FetchOutcome.ok (some Json.null) ∧
      onfidoFetch true 200 (UpstreamBody.invalid "<html>") ≠
        FetchOutcome.ok (some Json.null) := by
  refine ⟨rfl, rfl, ?_⟩
  decide

/-- Claim C9 amended: only an empty success body is treated as an
absent (null) body; a non-empty body that is not valid JSON makes the
call fail with the JSON parse error, thrown before the status check,
whatever the status. -/
theorem onfido_fetch_empty_vs_invalid (okFlag : Bool) (st : Nat) (t : String) :
    onfidoFetch okFlag st (UpstreamBody.invalid t) = FetchOutcome.parseErr t ∧
      onfidoFetch true st UpstreamBody.empty = FetchOutcome.ok (some Json.null) :=
  ⟨rfl, rfl⟩

/-- Claim C10: if every entry of the webhook store carries its own key
as `workflow_run_id`, the same holds after any webhook ingest. -/
theorem webhook_store_key_consistency (now : String) (p : Json)
    (store : Store) (h : storeConsistent store = true) :
    storeConsistent (ingestPayload now p store) = true := by
  cases hr : extractRunId p with
  | none =>
    have hnone : ingestPayload now p store = store := by
      unfold ingestPayload
      rw [hr]
    rw [hnone]
    exact h
  | some rid =>
    cases ht : truthy (some rid) with
    | false =>
      rw [ingestPayload_falsy now p store rid hr ht]
      exact h
    | true =>
      rw [ingestPayload_truthy_eq now p store rid hr ht]
      unfold storeConsistent at h ⊢
      rw [List.all_eq_true] at h ⊢
      intro e he
      rcases Store.mem_set store rid _ e he with h1 | h1
      · subst h1
        simp [mergeRec_workflow_run_id]
      · exact h e h1

theorem webhook_store_key_consistency_witness :
    storeConsistent [] = true ∧
      storeConsistent (ingestPayload "t0" c10p []) = true :=
  ⟨by decide, webhook_store_key_consistency "t0" c10p [] (by decide)⟩

/-- Claim C3: once the stored record's status holds a value different
from processing, ingesting a later delivery for the same run whose
resource status is processing leaves the stored status unchanged. -/
theorem webhook_status_non_regression (now : String) (p : Json)
    (store : Store) (id : String) (rec : Rec) (st : Json)
    (hget : Store.get store (Json.str id) = some rec)
    (hst : rec.status = some st)
    (hne : st ≠ Json.str "processing")
    (hrid : extractRunId p = some (Json.str id))
    (hin : access (resourceOf p) "status" = some (Json.str "processing")) :
    (Store.get (ingestPayload now p store) (Json.str id)).map Rec.status =
      some (some st) := by
  cases ht : truthy (some (Json.str id)) with
  | true =>
    rw [ingestPayload_get_self now p store _ hrid ht]
    simp only [Option.map_some']
    rw [mergeRec_status, hin]
    simp [statusStep, hget, hst]
  | false =>
    rw [ingestPayload_falsy now p store _ hrid ht, hget]
    simp [hst]

theorem webhook_status_non_regression_witness :
    Store.get c3Store (Json.str "r3") =
        some { status := some (Json.str "approved") } ∧
      ({ status := some (Json.str "approved") } : Rec).status =
        some (Json.str "approved") ∧
      Json.str "approved" ≠ Json.str "processing" ∧
      extractRunId c3p = some (Json.str "r3") ∧
      access (resourceOf c3p) "status" = some (Json.str "processing") ∧
      (Store.get (ingestPayload "t9" c3p c3Store) (Json.str "r3")).map
          Rec.status = some (some (Json.str "approved")) :=
  ⟨by decide, by decide, by decide, by decide, by decide,
    webhook_status_non_regression "t9" c3p c3Store "r3"
      { status := some (Json.str "approved") } (Json.str "approved")
      (by decide) (by decide) (by decide) (by decide) (by decide)⟩

theorem lookupField_isSome_rawOutputStep (p : Json)
    (m : List (String × Json)) (k : String)
    (h : (lookupField m k).isSome = true) :
    (lookupField (rawOutputStep p m) k).isSome = true := by
  unfold rawOutputStep
  exact lookupField_isSome_applyWrites _ _ _
    (lookupField_isSome_mergeNonNull _ _ _ h)

theorem lookupField_isSome_rawOutputStep_mem (p : Json)
    (m : List (String × Json)) (k : String)
    (hnn : ∀ kv ∈ outputFields (outputOf p), kv.2 ≠ Json.null)
    (hk : k ∈ fieldKeys (outputFields (outputOf p))) :
    (lookupField (rawOutputStep p m) k).isSome = true := by
  unfold rawOutputStep
  exact lookupField_isSome_applyWrites _ _ _
    (lookupField_isSome_mergeNonNull_mem _ _ _ hnn hk)

/-- Claim C1: ingesting two deliveries for the same run identifier
whose output field sets are disjoint (and whose output values are
actually delivered, that is non-null) leaves a stored record whose
`raw_output` holds the union of both field sets. -/
theorem webhook_accumulation (t1 t2 : String) (p1 p2 : Json)
    (store : Store) (id : String)
    (hr1 : extractRunId p1 = some (Json.str id))
    (hr2 : extractRunId p2 = some (Json.str id))
    (ht : truthy (some (Json.str id)) = true)
    (hdisj : (fieldKeys (outputFields (outputOf p1))).all
        (fun k => !(fieldKeys (outputFields (outputOf p2))).contains k) = true)
    (hnn1 : (outputFields (outputOf p1)).all
        (fun kv => kv.2 != Json.null) = true)
    (hnn2 : (outputFields (outputOf p2)).all
        (fun kv => kv.2 != Json.null) = true) :
    runHasKeys (ingestPayload t2 p2 (ingestPayload t1 p1 store))
      (Json.str id)
      (fieldKeys (outputFields (outputOf p1)) ++
        fieldKeys (outputFields (outputOf p2))) = true := by
  have hnn1a : ∀ kv ∈ outputFields (outputOf p1), kv.2 ≠ Json.null := by
    intro kv hkv
    simpa using List.all_eq_true.1 hnn1 kv hkv
  have hnn2a : ∀ kv ∈ outputFields (outputOf p2), kv.2 ≠ Json.null := by
    intro kv hkv
    simpa using List.all_eq_true.1 hnn2 kv hkv
  unfold runHasKeys
  rw [ingestPayload_get_self t2 p2 _ _ hr2 ht]
  simp only [Option.map_some', Option.getD_some]
  rw [List.all_eq_true]
  intro k hk
  rw [mergeRec_raw_output]
  rw [ingestPayload_get_self t1 p1 store _ hr1 ht]
  simp only [Option.getD_some]
  rw [mergeRec_raw_output]
  rcases List.mem_append.1 hk with hk1 | hk1
  · exact lookupField_isSome_rawOutputStep p2 _ k
      (lookupField_isSome_rawOutputStep_mem p1 _ k hnn1a hk1)
  · exact lookupField_isSome_rawOutputStep_mem p2 _ k hnn2a hk1

theorem webhook_accumulation_witness :
    extractRunId c1p1 = some (Json.str "r1") ∧
      extractRunId c1p2 = some (Json.str "r1") ∧
      truthy (some (Json.str "r1")) = true ∧
      (fieldKeys (outputFields (outputOf c1p1))).all
        (fun k => !(fieldKeys (outputFields (outputOf c1p2))).contains k) = true ∧
      (outputFields (outputOf c1p1)).all (fun kv => kv.2 != Json.null) = true ∧
      (outputFields (outputOf c1p2)).all (fun kv => kv.2 != Json.null) = true ∧
      runHasKeys (ingestPayload "t2" c1p2 (ingestPayload "t1" c1p1 []))
        (Json.str "r1")
        (fieldKeys (outputFields (outputOf c1p1)) ++
          fieldKeys (outputFields (outputOf c1p2))) = true :=
  ⟨by decide, by decide, by decide, by decide, by decide, by decide,
    webhook_accumulation "t1" "t2" c1p1 c1p2 [] "r1" (by decide) (by decide)
      (by decide) (by decide) (by decide) (by decide)⟩

/-- Claim C2 counterexample: the field `x` is present with the non-null
value 1 after the first delivery for run `r2`, and a later delivery for
the same run whose `output.properties` maps `x` to null overwrites it
with null — `raw_output` does not keep the earlier non-null value. -/
theorem webhook_null_preservation_counterexample :
    rawFieldNonNull (ingestPayload "t1" c2p1 []) (Json.str "r2") "x" = true ∧
      (Store.get (ingestPayload "t2" c2p2 (ingestPayload "t1" c2p1 []))
          (Json.str "r2")).map (fun r => lookupField r.raw_output "x") =
        some (some Json.null) ∧
      rawFieldNonNull (ingestPayload "t2" c2p2 (ingestPayload "t1" c2p1 []))
        (Json.str "r2") "x" = false := by
  refine ⟨by decide, by decide, by decide⟩

/-- Claim C2 amended: a key present with a non-null value in the stored
record's `raw_output` is still present with a non-null value after any
later delivery for the same run whose `output.properties` does not bind
that key: the top-level output merge never erases (null or absent
top-level fields are skipped), but a binding inside `output.properties`
is copied unconditionally and can erase. -/
theorem webhook_null_preservation_amended (now : String) (p : Json)
    (store : Store) (rid : Json) (k : String)
    (hfield : rawFieldNonNull store rid k = true)
    (hrid : extractRunId p = some rid)
    (hprops : k ∉ fieldKeys (propsFields (outputOf p))) :
    rawFieldNonNull (ingestPayload now p store) rid k = true := by
  cases ht : truthy (some rid) with
  | false =>
    rw [ingestPayload_falsy now p store rid hrid ht]
    exact hfield
  | true =>
    unfold rawFieldNonNull at hfield ⊢
    cases hsg : Store.get store rid with
    | none => rw [hsg] at hfield; simp at hfield
    | some r =>
      rw [hsg] at hfield
      simp only [Option.map_some', Option.getD_some] at hfield
      cases hlf : lookupField r.raw_output k with
      | none => rw [hlf] at hfield; simp at hfield
      | some v =>
        rw [hlf] at hfield
        simp only [Option.map_some', Option.getD_some] at hfield
        have hvnn : v ≠ Json.null := of_decide_eq_true hfield
        rw [ingestPayload_get_self now p store rid hrid ht]
        simp only [Option.map_some', Option.getD_some]
        rw [mergeRec_raw_output, hsg]
        simp only [Option.getD_some]
        obtain ⟨w, hw, hwnn⟩ :=
          lookupField_mergeNonNull_nonnull (outputFields (outputOf p))
            r.raw_output k v hlf hvnn
        have hfin : lookupField (rawOutputStep p r.raw_output) k = some w := by
          unfold rawOutputStep
          rw [lookupField_applyWrites_not_mem _ _ hprops]
          exact hw
        rw [hfin]
        simpa using hwnn

theorem webhook_null_preservation_amended_witness :
    rawFieldNonNull c2wStore (Json.str "rw2") "x" = true ∧
      extractRunId c2wP = some (Json.str "rw2") ∧
      "x" ∉ fieldKeys (propsFields (outputOf c2wP)) ∧
      rawFieldNonNull (ingestPayload "t3" c2wP c2wStore) (Json.str "rw2") "x" =
        true :=
  ⟨by decide, by decide, by decide,
    webhook_null_preservation_amended "t3" c2wP c2wStore (Json.str "rw2") "x"
      (by decide) (by decide) (by decide)⟩

/-- Claim C4: ingesting the identical payload twice (with the model's
explicit timestamps) produces the same final store as ingesting it
once, for every payload whose run identifier is a primitive value and
every prior store state. -/
theorem webhook_ingest_idempotent (t1 t2 : String) (p : Json) (store : Store)
    (hprim : ((extractRunId p).map Json.isPrimitive).getD true = true) :
    ingestPayload t2 p (ingestPayload t1 p store) = ingestPayload t2 p store := by
  cases hr : extractRunId p with
  | none =>
    have hnone : ∀ s : Store, ingestPayload t2 p s = s := by
      intro s
      unfold ingestPayload
      rw [hr]
    have hnone1 : ingestPayload t1 p store = store := by
      unfold ingestPayload
      rw [hr]
    rw [hnone, hnone, hnone1]
  | some rid =>
    cases ht : truthy (some rid) with
    | false =>
      rw [ingestPayload_falsy t1 p store rid hr ht,
        ingestPayload_falsy t2 p store rid hr ht]
    | true =>
      rw [ingestPayload_truthy_eq t1 p store rid hr ht,
        ingestPayload_truthy_eq t2 p _ rid hr ht,
        ingestPayload_truthy_eq t2 p store rid hr ht]
      rw [Store.get_set_self]
      simp only [Option.getD_some]
      rw [mergeRec_idem, Store.set_set_same]

theorem webhook_ingest_idempotent_witness :
    ((extractRunId c4p).map Json.isPrimitive).getD true = true ∧
      ingestPayload "t2" c4p (ingestPayload "t1" c4p []) =
        ingestPayload "t2" c4p [] :=
  ⟨by decide, webhook_ingest_idempotent "t1" "t2" c4p [] (by decide)⟩

/-- Claim C5 counterexample: with no status previously recorded, the
first delivery for run `r5` carrying the status string `processing` is
not stored — the created record's status is left unset, not
`processing`. -/
theorem webhook_first_processing_dropped_counterexample :
    (Store.get (ingestPayload "t1" c5p []) (Json.str "r5")).map Rec.status =
        some none ∧
      (Store.get (ingestPayload "t1" c5p []) (Json.str "r5")).map Rec.status ≠
        some (some (Json.str "processing")) := by
  refine ⟨by decide, by decide⟩

/-- Claim C5 amended: the stored status is overwritten exactly when the
incoming resource status is a string different from `processing`; there
is no first-write exception, so a first delivery whose status is
`processing` (or not a string) leaves the status as it was — unset on a
fresh record. -/
theorem webhook_status_update_policy (now : String) (p : Json)
    (store : Store) (rid : Json)
    (hrid : extractRunId p = some rid)
    (ht : truthy (some rid) = true) :
    (Store.get (ingestPayload now p store) rid).map Rec.status =
      some (statusStep (access (resourceOf p) "status")
        (((Store.get store rid).getD emptyRec).status)) := by
  rw [ingestPayload_get_self now p store rid hrid ht]
  simp only [Option.map_some']
  rw [mergeRec_status]

theorem webhook_status_update_policy_witness :
    extractRunId c5wp = some (Json.str "r5w") ∧
      truthy (some (Json.str "r5w")) = true ∧
      (Store.get (ingestPayload "t1" c5wp []) (Json.str "r5w")).map Rec.status =
        some (statusStep (access (resourceOf c5wp) "status")
          (((Store.get ([] : Store) (Json.str "r5w")).getD emptyRec).status)) :=
  ⟨by decide, by decide,
    webhook_status_update_policy "t1" c5wp [] (Json.str "r5w") (by decide)
      (by decide)⟩

/-- Claim C7 counterexample: on a payload declaring resource type
`workflow_run` with a resource `id` of `A` and an alternate object
`workflow_run_id` of `B`, the claimed order selects `A` while the
handler selects `B` and stores the record under `B`. -/
theorem webhook_run_id_order_counterexample :
    specExtractRunId c7p = some (Json.str "A") ∧
      extractRunId c7p = some (Json.str "B") ∧
      specExtractRunId c7p ≠ extractRunId c7p ∧
      (Store.get (ingestPayload "t1" c7p []) (Json.str "B")).isSome = true ∧
      Store.get (ingestPayload "t1" c7p []) (Json.str "A") = none := by
  refine ⟨by decide, by decide, by decide, by decide, by decide⟩

/-- Claim C7 amended: the handler checks, in order, the resource's
`workflow_run_id`, then the alternate nested object's
`workflow_run_id`, then the resource's own `id` when the payload's
declared resource type is a workflow run, taking the first truthy
match; the alternate object's plain `id` is never consulted. -/
theorem webhook_run_id_extraction_amended (p : Json) :
    extractRunId p = amendedExtractRunId p := by
  unfold extractRunId amendedExtractRunId
  cases h1 : truthy (access (resourceOf p) "workflow_run_id") with
  | true => simp [firstTruthy, jsOr, h1]
  | false =>
    cases h2 : truthy (access (objectOf p) "workflow_run_id") with
    | true => simp [firstTruthy, jsOr, h1, h2]
    | false =>
      by_cases hc : access (access (some p) "payload") "resource_type" =
          some (Json.str "workflow_run")
      · cases h3 : truthy (access (resourceOf p) "id") with
        | true => simp [firstTruthy, jsOr, h1, h2, h3, hc]
        | false => simp [firstTruthy, jsOr, h1, h2, h3, hc, truthy]
      · simp [firstTruthy, jsOr, h1, h2, hc, truthy]
